import Mathlib

/-!
Verification of the skill-installation orchestrator
(`src/agents/skills-install.ts` of SoLoBot-Server).

The TypeScript module is shallowly embedded: every function of the module is
translated into a Lean definition of the same name.  External collaborators
(the bounded process runner, the binary-lookup helper, the manifest loader,
the security scanner, the guarded download, path/JSON utilities of Node) are
modelled as fields of an explicit `Host` record, matching the interfaces the
spec gives for them.  Subprocess invocations are made observable by threading
a `Trace` (the list of argv vectors executed so far) through every function
that can spawn a process; `Host.run` and `Host.hasBinary` may depend on that
history, which models the fact that running an installer can change which
binaries are discoverable afterwards.
-/

/-! ## JavaScript string primitives -/

/-- The whitespace class used by JavaScript `trim` and the regex class `\s`
(ASCII whitespace plus the common Unicode space characters). -/
def isJsSpace (c : Char) : Bool :=
  c = ' ' || c = '\t' || c = '\n' || c = '\r' ||
  c.toNat = 0x0b || c.toNat = 0x0c ||
  c.toNat = 0xa0 || c.toNat = 0x1680 ||
  (0x2000 <= c.toNat && c.toNat <= 0x200a) ||
  c.toNat = 0x2028 || c.toNat = 0x2029 || c.toNat = 0x202f ||
  c.toNat = 0x205f || c.toNat = 0x3000 || c.toNat = 0xfeff

/-- JavaScript `String.prototype.trim`. -/
def jsTrim (s : String) : String :=
  ⟨((s.data.dropWhile isJsSpace).reverse.dropWhile isJsSpace).reverse⟩

/-- JavaScript `String.prototype.split` with a single-character separator. -/
def splitOnCharAux (sep : Char) : List Char → List Char → List String
  | [], acc => [⟨acc.reverse⟩]
  | c :: rest, acc =>
    if c = sep then ⟨acc.reverse⟩ :: splitOnCharAux sep rest []
    else splitOnCharAux sep rest (c :: acc)

def splitOnChar (sep : Char) (s : String) : List String :=
  splitOnCharAux sep s.data []

/-- JavaScript `String.prototype.toLowerCase` (ASCII range). -/
def lowerStr (s : String) : String := ⟨s.data.map Char.toLower⟩

/-- Leading-match test on character lists (used to model regex literals). -/
def startsWithChars : List Char → List Char → Bool
  | [], _ => true
  | _ :: _, [] => false
  | p :: ps, c :: cs => p = c && startsWithChars ps cs

/-- JavaScript `String.prototype.includes`. -/
def containsSubAux (pat : List Char) : List Char → Bool
  | [] => startsWithChars pat []
  | c :: rest => startsWithChars pat (c :: rest) || containsSubAux pat rest

def containsSub (s pat : String) : Bool := containsSubAux pat.data s.data

/-- The regex word-character class `\w` = `[A-Za-z0-9_]`. -/
def isWordChar (c : Char) : Bool := c.isAlphanum || c = '_'

/-- `Array.prototype.filter(Boolean).join("\n")` over accumulated parts. -/
def joinNonEmptyLines (parts : List String) : String :=
  String.intercalate "\n" (parts.filter (· ≠ ""))

/-! ## The two failure-summary regexes of `summarizeInstallOutput` -/

/-- `/^error\b/i.test(line)`: the line starts with the word `error`
(case-insensitive), i.e. with `error` followed by a non-word character or
the end of the line. -/
def isErrorLeading (line : String) : Bool :=
  let cs := (lowerStr line).data
  startsWithChars "error".data cs &&
    (match cs.drop 5 with
     | [] => true
     | c :: _ => ¬ isWordChar c)

/-- Right word boundary after a pattern that ends in a word character:
the end of input, or a following non-word character. -/
def rightBoundaryAfterWord : List Char → Bool
  | [] => true
  | c :: _ => ¬ isWordChar c

/-- Right word boundary after a pattern that ends in a non-word character
(`!` or `:`): there must be a following word character. -/
def rightBoundaryAfterNonWord : List Char → Bool
  | [] => false
  | c :: _ => isWordChar c

/-- Left word boundary before a pattern that starts with a word character:
the start of input, or a preceding non-word character. -/
def leftBoundaryOk : Option Char → Bool
  | none => true
  | some p => ¬ isWordChar p

/-- One alternative of `/\b(err!|error:|failed)\b/i` matches at the head of
`cs` (which is already lowercased), given the preceding character. -/
def failureKeywordAt (prev : Option Char) (cs : List Char) : Bool :=
  leftBoundaryOk prev &&
    ((startsWithChars "err!".data cs && rightBoundaryAfterNonWord (cs.drop 4)) ||
     (startsWithChars "error:".data cs && rightBoundaryAfterNonWord (cs.drop 6)) ||
     (startsWithChars "failed".data cs && rightBoundaryAfterWord (cs.drop 6)))

def hasFailureKeywordAux (prev : Option Char) : List Char → Bool
  | [] => false
  | c :: rest =>
    failureKeywordAt prev (c :: rest) || hasFailureKeywordAux (some c) rest

/-- `/\b(err!|error:|failed)\b/i.test(line)`. -/
def hasFailureKeyword (line : String) : Bool :=
  hasFailureKeywordAux none (lowerStr line).data

/-! ## Result formatter -/

/-- `preferred.replace(/\s+/g, " ")`: collapse every run of whitespace to a
single space. -/
def collapseWsAux : Bool → List Char → List Char
  | _, [] => []
  | prevWs, c :: rest =>
    if isJsSpace c then
      if prevWs then collapseWsAux true rest
      else ' ' :: collapseWsAux true rest
    else c :: collapseWsAux false rest

/-- `preferred.replace(/\s+/g, " ").trim()`. -/
def normalizeWs (s : String) : String := jsTrim ⟨collapseWsAux false s.data⟩

/-- `normalized.length > maxLen ? normalized.slice(0, maxLen-1) + ellipsis :
normalized` with `maxLen = 200`. -/
def truncate200 (s : String) : String :=
  if s.length > 200 then ⟨(s.data.take 199) ++ ['…']⟩ else s

/-- The trimmed, non-empty lines of `summarizeInstallOutput`:
`raw.split("\n").map(trim).filter(Boolean)`. -/
def summaryLines (raw : String) : List String :=
  ((splitOnChar '\n' raw).map jsTrim).filter (· ≠ "")

/-- `summarizeInstallOutput` (src/agents/skills-install.ts lines 68-92). -/
def summarizeInstallOutput (text : String) : Option String :=
  let raw := jsTrim text
  if raw = "" then none
  else
    let lines := summaryLines raw
    if lines = [] then none
    else
      let preferred :=
        ((lines.find? isErrorLeading).orElse
          (fun _ => lines.find? hasFailureKeyword)).orElse
          (fun _ => lines.getLast?)
      match preferred with
      | none => none
      | some p =>
        if p = "" then none
        else some (truncate200 (normalizeWs p))

/-- `detectPlatformIncompatibilityHint` (lines 43-66); `arch` and `platform`
stand for `process.arch` and `process.platform`. -/
def detectPlatformIncompatibilityHint (arch platform output : String) :
    Option String :=
  let hay := lowerStr output
  if (containsSub hay "required: arm64" || containsSub hay "arm64 architecture")
      && arch ≠ "arm64" then
    some ("Not supported on this machine architecture (requires arm64; current "
      ++ arch ++ ").")
  else if (containsSub hay "requires macos" || containsSub hay "macos is required")
      && platform ≠ "darwin" then
    some ("Not supported on this OS (requires macOS; current " ++ platform ++ ").")
  else if (containsSub hay "requires linux" || containsSub hay "linux is required")
      && platform ≠ "linux" then
    some ("Not supported on this OS (requires Linux; current " ++ platform ++ ").")
  else none

/-- The result of the bounded process runner:
`{stdout, stderr, code}` with `code` null on spawn failure or timeout. -/
structure RunResult where
  stdout : String
  stderr : String
  code : Option Int
deriving Repr, DecidableEq

/-- The exit-code label of `formatInstallFailureMessage`:
`typeof code === "number" ? "exit N" : "unknown exit"`. -/
def exitLabel : Option Int → String
  | some n => "exit " ++ toString n
  | none => "unknown exit"

/-- `formatInstallFailureMessage` (lines 94-107). -/
def formatInstallFailureMessage (arch platform : String) (r : RunResult) :
    String :=
  let code := exitLabel r.code
  let summary :=
    (summarizeInstallOutput r.stderr).orElse
      (fun _ => summarizeInstallOutput r.stdout)
  let hint :=
    detectPlatformIncompatibilityHint arch platform (r.stderr ++ "\n" ++ r.stdout)
  match summary with
  | none =>
    match hint with
    | some hn => "Install failed (" ++ code ++ "): " ++ hn
    | none => "Install failed (" ++ code ++ ")"
  | some s =>
    match hint with
    | some hn => "Install failed (" ++ code ++ "): " ++ hn ++ " " ++ s
    | none => "Install failed (" ++ code ++ "): " ++ s

/-! ## Data model -/

/-- One declared install strategy (`SkillInstallSpec`).  The TypeScript type
is a record of optional fields discriminated by the `kind` string; optional
fields are `Option`s defaulting to `none` (JavaScript `undefined`). -/
structure SkillInstallSpec where
  kind : String
  id : Option String := none
  formula : Option String := none
  package : Option String := none
  module : Option String := none
  url : Option String := none
  archive : Option String := none
  extract : Option Bool := none
  stripComponents : Option Int := none
  targetDir : Option String := none
  bins : Option (List String) := none
deriving Repr, DecidableEq

/-- Identity of a skill (`entry.skill`). -/
structure SkillInfo where
  name : String
  baseDir : String
  source : String
  filePath : String
deriving Repr, DecidableEq

/-- `entry.metadata.requires`. -/
structure SkillRequires where
  bins : Option (List String) := none
  anyBins : Option (List String) := none
deriving Repr, DecidableEq

/-- `entry.metadata`. -/
structure SkillMetadata where
  install : Option (List SkillInstallSpec) := none
  requires : Option SkillRequires := none
deriving Repr, DecidableEq

/-- One manifest entry (`SkillEntry`). -/
structure SkillEntry where
  skill : SkillInfo
  metadata : Option SkillMetadata := none
deriving Repr, DecidableEq

/-- One finding of the security scanner. -/
structure ScanFinding where
  message : String
  file : String
  line : Nat
  severity : String
deriving Repr, DecidableEq

/-- The summary of the security scanner (`scanDirectoryWithSummary`). -/
structure ScanSummary where
  critical : Nat
  warn : Nat
  findings : List ScanFinding
deriving Repr, DecidableEq

/-- `SkillsInstallPreferences`. -/
structure SkillsInstallPreferences where
  nodeManager : String
  preferBrew : Bool
deriving Repr, DecidableEq

/-- The single output contract (`SkillInstallResult`). -/
structure SkillInstallResult where
  ok : Bool
  message : String
  stdout : String
  stderr : String
  code : Option Int
  warnings : Option (List String) := none
deriving Repr, DecidableEq

/-- One attempted remediation for a missing binary (`PrereqInstallAttempt`). -/
structure PrereqInstallAttempt where
  bin : String
  ok : Bool
  message : String
  stdout : String
  stderr : String
  code : Option Int
deriving Repr, DecidableEq

/-- The caller request (`SkillInstallRequest`); the `config` field only feeds
`resolveSkillsInstallPreferences`, which is modelled by `Host.prefs`. -/
structure SkillInstallRequest where
  workspaceDir : String
  skillName : String
  installId : String
  timeoutMs : Option Int := none
deriving Repr, DecidableEq

/-- The list of argv vectors handed to the bounded process runner so far.
Every subprocess the code spawns appends its argv here, so a claim about
"no subprocess is invoked" is a claim that the trace is unchanged. -/
abbrev Trace := List (List String)

/-- The external collaborators of the module, as the spec describes them at
their interface boundary.  `run` and `hasBinary` receive the execution
history so that installing a binary can make it discoverable afterwards;
`run` also receives the timeout and the optional GOBIN environment override
used by the final `go install` execution. -/
structure Host where
  run : Trace → List String → Int → Option String → RunResult
  hasBinary : Trace → String → Bool
  platform : String
  arch : String
  isRoot : Bool
  homebrewPrefixEnv : Option String
  brewFallbackExe : Option String
  fileExists : String → Bool
  loadEntries : String → List SkillEntry
  resolveUserPath : String → String
  resolvePath : String → String
  relativePath : String → String → String
  resolveSkillKey : SkillEntry → String
  configDir : String
  scan : String → Except String ScanSummary
  fetchDownload : String → String → Int → Except String Nat
  parseUrlPath : String → Option String
  prefs : SkillsInstallPreferences
  renderDebug : SkillEntry → String → SkillInstallSpec → String

/-- Model of Node `path.basename`: trailing separators are ignored and the
part after the last remaining separator is returned. -/
def pathBasename (p : String) : String :=
  let cs := p.data.reverse.dropWhile (· = '/')
  ⟨(cs.takeWhile (· ≠ '/')).reverse⟩

/-- Model of Node `path.join` on two segments. -/
def pathJoin (a b : String) : String := a ++ "/" ++ b

/-- `runCommandWithTimeout`: invoke the bounded process runner and record the
argv in the trace. -/
def runCommandWithTimeout (h : Host) (tr : Trace) (argv : List String)
    (timeoutMs : Int) (gobin : Option String) : RunResult × Trace :=
  (h.run tr argv timeoutMs gobin, tr ++ [argv])

/-- `withWarnings` (lines 109-117). -/
def withWarnings (result : SkillInstallResult) (warnings : List String) :
    SkillInstallResult :=
  if warnings = [] then result
  else { result with warnings := some warnings }

/-- `formatScanFindingDetail` (lines 119-129). -/
def formatScanFindingDetail (h : Host) (rootDir : String)
    (finding : ScanFinding) : String :=
  let relative := h.relativePath rootDir finding.file
  let filePath :=
    if relative ≠ "" && relative ≠ "." && ¬ relative.startsWith ".." then
      relative
    else pathBasename finding.file
  finding.message ++ " (" ++ filePath ++ ":" ++ toString finding.line ++ ")"

/-- The warning pushed when the scanner throws (line 152-154). -/
def scanFailWarning (skillName err : String) : String :=
  "Skill \"" ++ skillName ++ "\" code safety scan failed (" ++ err ++
    "). Installation continues; run \"openclaw security audit --deep\" after install."

/-- `collectSkillInstallScanWarnings` (lines 131-158); a scanner exception is
the `Except.error` case. -/
def collectSkillInstallScanWarnings (h : Host) (entry : SkillEntry) :
    List String :=
  let skillName := entry.skill.name
  let skillDir := h.resolvePath entry.skill.baseDir
  match h.scan skillDir with
  | Except.error err => [scanFailWarning skillName err]
  | Except.ok summary =>
    if summary.critical > 0 then
      let criticalDetails := String.intercalate "; "
        (((summary.findings.filter (fun f => f.severity = "critical")).map
          (formatScanFindingDetail h skillDir)))
      ["WARNING: Skill \"" ++ skillName ++
        "\" contains dangerous code patterns: " ++ criticalDetails]
    else if summary.warn > 0 then
      ["Skill \"" ++ skillName ++ "\" has " ++ toString summary.warn ++
        " suspicious code pattern(s). Run \"openclaw security audit --deep\" for details."]
    else []

/-- `resolveInstallId` (lines 160-162): `(spec.id ?? kind-index).trim()`. -/
def resolveInstallId (spec : SkillInstallSpec) (index : Nat) : String :=
  jsTrim (spec.id.getD (spec.kind ++ "-" ++ toString index))

def findInstallSpecAux (installId : String) :
    List SkillInstallSpec → Nat → Option SkillInstallSpec
  | [], _ => none
  | s :: rest, index =>
    if resolveInstallId s index = installId then some s
    else findInstallSpecAux installId rest (index + 1)

/-- `findInstallSpec` (lines 164-172): first spec whose resolved id matches. -/
def findInstallSpec (entry : SkillEntry) (installId : String) :
    Option SkillInstallSpec :=
  let specs := ((entry.metadata.map (·.install)).getD none).getD []
  findInstallSpecAux installId specs 0

/-- `buildNodeInstallCommand` (lines 174-185). -/
def buildNodeInstallCommand (packageName : String)
    (prefs : SkillsInstallPreferences) : List String :=
  if prefs.nodeManager = "pnpm" then ["pnpm", "add", "-g", packageName]
  else if prefs.nodeManager = "yarn" then ["yarn", "global", "add", packageName]
  else if prefs.nodeManager = "bun" then ["bun", "add", "-g", packageName]
  else ["npm", "install", "-g", packageName]

/-- The return type of `buildInstallCommand`: `{argv: string[] | null,
error?: string}`. -/
structure InstallCommand where
  argv : Option (List String)
  error : Option String := none
deriving Repr, DecidableEq

/-- `buildInstallCommand` (lines 187-227).  A JavaScript falsy check
`!spec.field` on an optional string holds for `undefined` and `""`. -/
def buildInstallCommand (spec : SkillInstallSpec)
    (prefs : SkillsInstallPreferences) : InstallCommand :=
  if spec.kind = "brew" then
    if spec.formula.getD "" = "" then
      { argv := none, error := some "missing brew formula" }
    else { argv := some ["brew", "install", spec.formula.getD ""] }
  else if spec.kind = "node" then
    if spec.package.getD "" = "" then
      { argv := none, error := some "missing node package" }
    else { argv := some (buildNodeInstallCommand (spec.package.getD "") prefs) }
  else if spec.kind = "go" then
    if spec.module.getD "" = "" then
      { argv := none, error := some "missing go module" }
    else { argv := some ["go", "install", spec.module.getD ""] }
  else if spec.kind = "uv" then
    if spec.package.getD "" = "" then
      { argv := none, error := some "missing uv package" }
    else { argv := some ["uv", "tool", "install", spec.package.getD ""] }
  else if spec.kind = "download" then
    { argv := none, error := some "download install handled separately" }
  else { argv := none, error := some "unsupported installer" }

/-- `resolveDownloadTargetDir` (lines 229-235). -/
def resolveDownloadTargetDir (h : Host) (entry : SkillEntry)
    (spec : SkillInstallSpec) : String :=
  if jsTrim (spec.targetDir.getD "") ≠ "" then
    h.resolveUserPath (spec.targetDir.getD "")
  else
    pathJoin (pathJoin h.configDir "tools") (h.resolveSkillKey entry)

/-- JavaScript `String.prototype.endsWith`. -/
def endsWithStr (s suffixStr : String) : Bool :=
  startsWithChars suffixStr.data.reverse s.data.reverse

/-- `resolveArchiveType` (lines 237-253). -/
def resolveArchiveType (spec : SkillInstallSpec) (filename : String) :
    Option String :=
  let explicit := lowerStr (jsTrim (spec.archive.getD ""))
  if explicit ≠ "" then some explicit
  else
    let lower := lowerStr filename
    if endsWithStr lower ".tar.gz" || endsWithStr lower ".tgz" then
      some "tar.gz"
    else if endsWithStr lower ".tar.bz2" || endsWithStr lower ".tbz2" then
      some "tar.bz2"
    else if endsWithStr lower ".zip" then some "zip"
    else none

/-- `downloadFile` (lines 255-280): the guarded fetch, streaming and `stat`
are the collaborator `Host.fetchDownload`; the in-module part is the
`Math.max(1000, timeoutMs)` clamp on the fetch timeout. -/
def downloadFile (h : Host) (url destPath : String) (timeoutMs : Int) :
    Except String Nat :=
  h.fetchDownload url destPath (max 1000 timeoutMs)

/-- `extractArchive` (lines 282-306). -/
def extractArchive (h : Host) (tr : Trace) (archivePath archiveType
    targetDir : String) (stripComponents : Option Int) (timeoutMs : Int) :
    RunResult × Trace :=
  if archiveType = "zip" then
    if !h.hasBinary tr "unzip" then
      ({ stdout := "", stderr := "unzip not found on PATH", code := none }, tr)
    else
      runCommandWithTimeout h tr ["unzip", "-q", archivePath, "-d", targetDir]
        timeoutMs none
  else if !h.hasBinary tr "tar" then
    ({ stdout := "", stderr := "tar not found on PATH", code := none }, tr)
  else
    let argv := ["tar", "xf", archivePath, "-C", targetDir] ++
      (match stripComponents with
       | some n => ["--strip-components", toString (max 0 n)]
       | none => [])
    runCommandWithTimeout h tr argv timeoutMs none

/-- The filename derivation of `installDownloadSpec` (lines 325-334):
basename of the parsed URL pathname, else basename of the raw URL, with
`"download"` as the last resort.  `Host.parseUrlPath` models `new URL`. -/
def downloadFilename (parseUrlPath : String → Option String) (url : String) :
    String :=
  let filename :=
    match parseUrlPath url with
    | some pathname => pathBasename pathname
    | none => pathBasename url
  if filename = "" then "download" else filename

/-- JavaScript truthiness of a nullable string: not nullish and not `""`. -/
def jsTruthy (o : Option String) : Bool := o.getD "" ≠ ""

/-- `installDownloadSpec` (lines 308-388). -/
def installDownloadSpec (h : Host) (entry : SkillEntry)
    (spec : SkillInstallSpec) (timeoutMs : Int) (tr : Trace) :
    SkillInstallResult × Trace :=
  let url := jsTrim (spec.url.getD "")
  if url = "" then
    ({ ok := false, message := "missing download url", stdout := "",
       stderr := "", code := none }, tr)
  else
    let filename := downloadFilename h.parseUrlPath url
    let targetDir := resolveDownloadTargetDir h entry spec
    let archivePath := pathJoin targetDir filename
    match downloadFile h url archivePath timeoutMs with
    | Except.error message =>
      ({ ok := false, message := message, stdout := "", stderr := message,
         code := none }, tr)
    | Except.ok downloaded =>
      let archiveType := resolveArchiveType spec filename
      let shouldExtract := spec.extract.getD archiveType.isSome
      if !shouldExtract then
        ({ ok := true, message := "Downloaded to " ++ archivePath,
           stdout := "downloaded=" ++ toString downloaded, stderr := "",
           code := some 0 }, tr)
      else
        match archiveType with
        | none =>
          ({ ok := false,
             message := "extract requested but archive type could not be detected",
             stdout := "", stderr := "", code := none }, tr)
        | some aType =>
          let out := extractArchive h tr archivePath aType targetDir
            spec.stripComponents timeoutMs
          let extractResult := out.1
          let success := extractResult.code == some 0
          ({ ok := success,
             message :=
               if success then "Downloaded and extracted to " ++ targetDir
               else formatInstallFailureMessage h.arch h.platform extractResult,
             stdout := jsTrim extractResult.stdout,
             stderr := jsTrim extractResult.stderr,
             code := extractResult.code }, out.2)

/-- `resolveBrewBinDir` (lines 390-421). -/
def resolveBrewBinDir (h : Host) (tr : Trace) (timeoutMs : Int)
    (brewExe : Option String) : Option String × Trace :=
  let exe :=
    match brewExe with
    | some e => some e
    | none => if h.hasBinary tr "brew" then some "brew" else h.brewFallbackExe
  if !jsTruthy exe then (none, tr)
  else
    let out := runCommandWithTimeout h tr [exe.getD "", "--prefix"]
      (min timeoutMs 30000) none
    let prefixResult := out.1
    if prefixResult.code == some 0 && jsTrim prefixResult.stdout ≠ "" then
      (some (pathJoin (jsTrim prefixResult.stdout) "bin"), out.2)
    else
      let envPfx := h.homebrewPrefixEnv.map jsTrim
      if jsTruthy envPfx then (some (pathJoin (envPfx.getD "") "bin"), out.2)
      else if h.fileExists "/opt/homebrew/bin" then (some "/opt/homebrew/bin", out.2)
      else if h.fileExists "/usr/local/bin" then (some "/usr/local/bin", out.2)
      else (none, out.2)

/-- One row of the closed allow-list: candidate remediations grouped by
installer family; an absent family is the empty list. -/
structure AllowEntry where
  apt : List String := []
  brew : List String := []
  node : List String := []
  go : List String := []
deriving Repr, DecidableEq

/-- `BIN_INSTALL_ALLOWLIST` (lines 432-451), as a closed lookup table. -/
def BIN_INSTALL_ALLOWLIST (bin : String) : Option AllowEntry :=
  if bin = "git" then some { apt := ["git"], brew := ["git"] }
  else if bin = "curl" then some { apt := ["curl"], brew := ["curl"] }
  else if bin = "unzip" then some { apt := ["unzip"], brew := ["unzip"] }
  else if bin = "tar" then some { apt := ["tar"], brew := ["gnu-tar"] }
  else if bin = "ffmpeg" then some { apt := ["ffmpeg"], brew := ["ffmpeg"] }
  else if bin = "convert" then
    some { apt := ["imagemagick"], brew := ["imagemagick"] }
  else if bin = "go" then some { apt := ["golang-go"], brew := ["go"] }
  else if bin = "uv" then some { apt := [], brew := ["uv"] }
  else if bin = "python3" then some { apt := ["python3"], brew := ["python"] }
  else if bin = "pip3" then some { apt := ["python3-pip"], brew := ["python"] }
  else none

/-- `uniqueNonEmpty` (lines 453-455): trim, drop empties, dedupe keeping the
first occurrence (insertion order of a `Set`). -/
def uniqueNonEmpty (values : List String) : List String :=
  ((values.map jsTrim).filter (· ≠ "")).foldl
    (fun acc v => if acc.contains v then acc else acc ++ [v]) []

/-- `canRunApt` (lines 457-461). -/
def canRunApt (h : Host) (tr : Trace) : Bool :=
  h.platform = "linux" && h.hasBinary tr "apt-get" && h.isRoot

/-- The ordered candidate list built by `tryInstallPrereqBin`
(lines 482-503): preferred brew first, then apt, then node, then go;
each element is `(kind, argv)`. -/
def prereqAttempts (h : Host) (tr : Trace) (prefs : SkillsInstallPreferences)
    (brewExe : Option String) (allow : AllowEntry) :
    List (String × List String) :=
  (if prefs.preferBrew && jsTruthy brewExe && allow.brew.length > 0 then
    allow.brew.map (fun formulaName =>
      ("brew", [brewExe.getD "", "install", formulaName]))
   else []) ++
  (if canRunApt h tr && allow.apt.length > 0 then
    [("apt", ["apt-get", "install", "-y"] ++ allow.apt)]
   else []) ++
  (allow.node.map (fun pkg => ("node", buildNodeInstallCommand pkg prefs))) ++
  (allow.go.map (fun moduleName => ("go", ["go", "install", moduleName])))

/-- The fallback loop of `tryInstallPrereqBin` (lines 517-529): run each
candidate in order; the first zero exit short-circuits the rest. -/
def runAttemptsLoop (h : Host) (timeoutMs : Int) :
    List (String × List String) → Trace →
    Option ((String × List String) × RunResult) × Trace
  | [], tr => (none, tr)
  | attempt :: rest, tr =>
    let out := runCommandWithTimeout h tr attempt.2 timeoutMs none
    if out.1.code == some 0 then (some (attempt, out.1), out.2)
    else runAttemptsLoop h timeoutMs rest out.2

/-- The tail of `tryInstallPrereqBin` (lines 505-542) once the candidate
list is built: the no-applicable-installer check, the fallback loop, and —
when every candidate fails — one more run of the last candidate
(`attempts.at(-1)!`) to capture its stdout/stderr for the returned
failure. -/
def runPrereqAttempts (h : Host) (timeoutMs : Int) (bin aptNote : String)
    (attempts : List (String × List String)) (tr : Trace) :
    PrereqInstallAttempt × Trace :=
  if attempts.length = 0 then
    ({ bin := bin, ok := false,
       message := "No applicable installer for " ++ bin ++ aptNote,
       stdout := "", stderr := "", code := none }, tr)
  else
    match runAttemptsLoop h timeoutMs attempts tr with
    | (some (attempt, res), tr2) =>
      ({ bin := bin, ok := true,
         message := "Installed prerequisite (" ++ attempt.1 ++ "): " ++ bin,
         stdout := jsTrim res.stdout, stderr := jsTrim res.stderr,
         code := res.code }, tr2)
    | (none, tr2) =>
      let last := (attempts.getLast?).getD ("", [])
      let out := runCommandWithTimeout h tr2 last.2 timeoutMs none
      ({ bin := bin, ok := false,
         message := "Failed to auto-install prerequisite (" ++ last.1 ++
           "): " ++ bin,
         stdout := jsTrim out.1.stdout, stderr := jsTrim out.1.stderr,
         code := out.1.code }, out.2)

/-- `tryInstallPrereqBin` (lines 463-542); the `aptNote` of the
no-applicable-installer message is pure, so hoisting it out of that branch
is behaviour-preserving. -/
def tryInstallPrereqBin (h : Host) (prefs : SkillsInstallPreferences)
    (brewExe : Option String) (timeoutMs : Int) (bin : String) (tr : Trace) :
    PrereqInstallAttempt × Trace :=
  match BIN_INSTALL_ALLOWLIST bin with
  | none =>
    ({ bin := bin, ok := false,
       message := "No auto-installer allowlisted for missing binary: " ++ bin,
       stdout := "", stderr := "", code := none }, tr)
  | some allow =>
    let aptNote :=
      if h.hasBinary tr "apt-get" && h.platform = "linux" then
        " (apt-get present but needs root)"
      else ""
    runPrereqAttempts h timeoutMs bin aptNote
      (prereqAttempts h tr prefs brewExe allow) tr

/-- The result record of `ensurePrerequisiteBins`; `warnings` is the array
the function declares and returns (it is never pushed to). -/
structure PrereqResult where
  ok : Bool
  message : Option String := none
  stdout : String
  stderr : String
  warnings : List String
deriving Repr, DecidableEq

/-- The per-binary loop of `ensurePrerequisiteBins` (lines 584-599),
accumulating the `==> prereq ...` stdout/stderr parts and aborting on the
first failed attempt. -/
def prereqLoop (h : Host) (prefs : SkillsInstallPreferences)
    (brewExe : Option String) (timeoutMs : Int) :
    List String → List String → List String → Trace →
    Except PrereqResult (List String × List String) × Trace
  | [], stdoutParts, stderrParts, tr =>
    (Except.ok (stdoutParts, stderrParts), tr)
  | bin :: rest, stdoutParts, stderrParts, tr =>
    let out := tryInstallPrereqBin h prefs brewExe timeoutMs bin tr
    let attempt := out.1
    let stdoutParts2 := stdoutParts ++
      ["==> prereq " ++ bin ++ ": " ++ attempt.message, attempt.stdout]
    let stderrParts2 :=
      if attempt.stderr ≠ "" then
        stderrParts ++ ["==> prereq " ++ bin ++ " stderr", attempt.stderr]
      else stderrParts
    if !attempt.ok then
      (Except.error { ok := false, message := some attempt.message,
                      stdout := joinNonEmptyLines stdoutParts2,
                      stderr := joinNonEmptyLines stderrParts2,
                      warnings := [] }, out.2)
    else prereqLoop h prefs brewExe timeoutMs rest stdoutParts2 stderrParts2 out.2

/-- `entry.metadata?.requires`. -/
def entryRequires (entry : SkillEntry) : Option SkillRequires :=
  entry.metadata.bind (·.requires)

/-- The union of `requires.bins` and spec-level `bins`
(`ensurePrerequisiteBins` lines 560-561). -/
def requiredBinsOf (entry : SkillEntry) (spec : SkillInstallSpec) :
    List String :=
  let specBins := ((spec.bins.getD []).map jsTrim).filter (· ≠ "")
  uniqueNonEmpty ((((entryRequires entry).bind (·.bins)).getD []) ++ specBins)

/-- `requires.anyBins` after `uniqueNonEmpty` (line 562). -/
def anyBinsOf (entry : SkillEntry) : List String :=
  uniqueNonEmpty (((entryRequires entry).bind (·.anyBins)).getD [])

/-- `missingRequired` (line 564): the required binaries that are not
discoverable on the lookup path at the given point of the history. -/
def missingRequiredOf (h : Host) (entry : SkillEntry)
    (spec : SkillInstallSpec) (tr : Trace) : List String :=
  (requiredBinsOf entry spec).filter (fun bin => !h.hasBinary tr bin)

/-- `ensurePrerequisiteBins` (lines 544-618). -/
def ensurePrerequisiteBins (h : Host) (entry : SkillEntry)
    (spec : SkillInstallSpec) (prefs : SkillsInstallPreferences)
    (brewExe : Option String) (timeoutMs : Int) (tr : Trace) :
    PrereqResult × Trace :=
  let anyBins := anyBinsOf entry
  let missingRequired := missingRequiredOf h entry spec tr
  let hasAny :=
    if anyBins.length = 0 then true
    else anyBins.any (fun bin => h.hasBinary tr bin)
  if !hasAny && anyBins.length > 0 then
    ({ ok := false,
       message := some ("Missing prerequisite: need one of [" ++
         String.intercalate ", " anyBins ++ "]"),
       stdout := "", stderr := "", warnings := [] }, tr)
  else if missingRequired.length = 0 then
    ({ ok := true, stdout := "", stderr := "", warnings := [] }, tr)
  else
    match prereqLoop h prefs brewExe timeoutMs missingRequired [] [] tr with
    | (Except.error failure, tr2) => (failure, tr2)
    | (Except.ok (stdoutParts, stderrParts), tr2) =>
      let stillMissing :=
        missingRequired.filter (fun bin => !h.hasBinary tr2 bin)
      if stillMissing.length > 0 then
        ({ ok := false,
           message := some ("Prerequisites still missing after auto-install: " ++
             String.intercalate ", " stillMissing),
           stdout := joinNonEmptyLines stdoutParts,
           stderr := joinNonEmptyLines stderrParts, warnings := [] }, tr2)
      else
        ({ ok := true, stdout := joinNonEmptyLines stdoutParts,
           stderr := joinNonEmptyLines stderrParts, warnings := [] }, tr2)

/-- The timeout clamp of `installSkill` (line 621):
`Math.min(Math.max(timeoutMs ?? 300000, 1000), 900000)`. -/
def effectiveTimeoutMs (timeoutMs : Option Int) : Int :=
  min (max (timeoutMs.getD 300000) 1000) 900000

/-- The `uv`/`go` bootstrap step of `installSkill` (lines 715-744 and
762-791): if the primary tool is missing, install it via brew when brew is
available, otherwise fail with remediation text. -/
def installToolBootstrap (h : Host) (tr : Trace) (timeoutMs : Int)
    (brewExe : Option String) (tool : String) :
    Except (SkillInstallResult × Trace) Trace :=
  if jsTruthy brewExe then
    let out := runCommandWithTimeout h tr [brewExe.getD "", "install", tool]
      timeoutMs none
    let brewResult := out.1
    if !(brewResult.code == some 0) then
      Except.error
        ({ ok := false, message := "Failed to install " ++ tool ++ " (brew)",
           stdout := jsTrim brewResult.stdout,
           stderr := jsTrim brewResult.stderr,
           code := brewResult.code }, out.2)
    else Except.ok out.2
  else
    Except.error
      ({ ok := false, message := tool ++ " not installed (install via brew)",
         stdout := "", stderr := "", code := none }, tr)

/-- The package-manager branch of `installSkill` (lines 654-831): strategy
resolution, brew lookup, prerequisite resolution, tool bootstraps, final
execution and output merge.  The runner is modelled total, so the
`try/catch` around the final execution (lines 806-814) and the inner
re-check of `command.argv` (lines 802-804, unreachable after the check at
line 745) collapse. -/
def installSkillRunStrategy (h : Host) (req : SkillInstallRequest)
    (entry : SkillEntry) (spec : SkillInstallSpec) (warnings : List String)
    (timeoutMs : Int) (tr : Trace) : SkillInstallResult × Trace :=
  let prefs := h.prefs
  let command := buildInstallCommand spec prefs
  match command.error with
  | some err =>
    (withWarnings { ok := false, message := err, stdout := "",
                    stderr := "Invalid installer spec (debug follows)\n" ++
                      h.renderDebug entry req.installId spec,
                    code := none } warnings, tr)
  | none =>
    let brewExe :=
      if h.hasBinary tr "brew" then some "brew" else h.brewFallbackExe
    if spec.kind = "brew" && !jsTruthy brewExe then
      (withWarnings { ok := false, message := "brew not installed",
                      stdout := "", stderr := "", code := none } warnings, tr)
    else
      let prereqOut := ensurePrerequisiteBins h entry spec prefs brewExe timeoutMs tr
      let prereq := prereqOut.1
      let tr2 := prereqOut.2
      let warnings2 := warnings ++ prereq.warnings
      if !prereq.ok then
        (withWarnings { ok := false,
                        message := prereq.message.getD "Missing prerequisites",
                        stdout := jsTrim prereq.stdout,
                        stderr := jsTrim prereq.stderr,
                        code := none } warnings2, tr2)
      else
        let afterUv :=
          if spec.kind = "uv" && !h.hasBinary tr2 "uv" then
            installToolBootstrap h tr2 timeoutMs brewExe "uv"
          else Except.ok tr2
        match afterUv with
        | Except.error out => (withWarnings out.1 warnings2, out.2)
        | Except.ok tr3 =>
          match command.argv with
          | none =>
            (withWarnings { ok := false,
                            message := "invalid install command",
                            stdout := "", stderr := "",
                            code := none } warnings2, tr3)
          | some argv =>
            if argv.length = 0 then
              (withWarnings { ok := false,
                              message := "invalid install command",
                              stdout := "", stderr := "",
                              code := none } warnings2, tr3)
            else
              let argv2 :=
                if spec.kind = "brew" && jsTruthy brewExe
                    && argv.headD "" = "brew" then
                  brewExe.getD "" :: argv.tail
                else argv
              let afterGo :=
                if spec.kind = "go" && !h.hasBinary tr3 "go" then
                  installToolBootstrap h tr3 timeoutMs brewExe "go"
                else Except.ok tr3
              match afterGo with
              | Except.error out => (withWarnings out.1 warnings2, out.2)
              | Except.ok tr4 =>
                let gobinOut :=
                  if spec.kind = "go" && jsTruthy brewExe then
                    resolveBrewBinDir h tr4 timeoutMs brewExe
                  else (none, tr4)
                let runOut := runCommandWithTimeout h gobinOut.2 argv2
                  timeoutMs gobinOut.1
                let result := runOut.1
                let success := result.code == some 0
                let mergedStdout :=
                  joinNonEmptyLines [jsTrim prereq.stdout, jsTrim result.stdout]
                let mergedStderr :=
                  joinNonEmptyLines [jsTrim prereq.stderr, jsTrim result.stderr]
                (withWarnings
                  { ok := success,
                    message :=
                      if success then "Installed"
                      else formatInstallFailureMessage h.arch h.platform
                        { stdout := mergedStdout, stderr := mergedStderr,
                          code := result.code },
                    stdout := mergedStdout, stderr := mergedStderr,
                    code := result.code } warnings2, runOut.2)

/-- `installSkill` after the entry has been found and the security scan has
produced its warning list (lines 635-831). -/
def installSkillWithEntry (h : Host) (req : SkillInstallRequest)
    (entry : SkillEntry) (warnings : List String) (timeoutMs : Int)
    (tr : Trace) : SkillInstallResult × Trace :=
  match findInstallSpec entry req.installId with
  | none =>
    (withWarnings { ok := false,
                    message := "Installer not found: " ++ req.installId,
                    stdout := "", stderr := "", code := none } warnings, tr)
  | some spec =>
    if spec.kind = "download" then
      let out := installDownloadSpec h entry spec timeoutMs tr
      (withWarnings out.1 warnings, out.2)
    else installSkillRunStrategy h req entry spec warnings timeoutMs tr

/-- `installSkill` (lines 620-831). -/
def installSkill (h : Host) (req : SkillInstallRequest) (tr : Trace) :
    SkillInstallResult × Trace :=
  let timeoutMs := effectiveTimeoutMs req.timeoutMs
  let workspaceDir := h.resolveUserPath req.workspaceDir
  let entries := h.loadEntries workspaceDir
  match entries.find? (fun item => item.skill.name == req.skillName) with
  | none =>
    ({ ok := false, message := "Skill not found: " ++ req.skillName,
       stdout := "", stderr := "", code := none }, tr)
  | some entry =>
    let warnings := collectSkillInstallScanWarnings h entry
    installSkillWithEntry h req entry warnings timeoutMs tr

/-! ## Auxiliary definitions for the statements -/

/-- A result with its warnings removed: used to state that a change can
affect at most the warnings of a result. -/
def stripWarnings (r : SkillInstallResult) : SkillInstallResult :=
  { r with warnings := none }

/-- The error message `buildInstallCommand` produces for a spec of the given
kind whose mandatory field is missing (for `download`, for the kind as
such). -/
def missingFieldError (kind : String) : String :=
  if kind = "brew" then "missing brew formula"
  else if kind = "node" then "missing node package"
  else if kind = "go" then "missing go module"
  else if kind = "uv" then "missing uv package"
  else if kind = "download" then "download install handled separately"
  else "unsupported installer"

/-- The same host with a scanner that returns a clean summary: the reference
point for "a throwing scanner changes nothing but the warnings". -/
def cleanScanHost (h : Host) : Host :=
  { h with scan := fun _ => Except.ok { critical := 0, warn := 0, findings := [] } }

/-! ## Concrete fixtures for witnesses and counterexamples -/

def sampleSkill : SkillInfo :=
  { name := "sample", baseDir := "/skills/sample", source := "workspace",
    filePath := "/skills/sample/SKILL.md" }

def sampleEntry : SkillEntry := { skill := sampleSkill }

def entryWithAny : SkillEntry :=
  { skill := sampleSkill,
    metadata := some { requires := some { anyBins := some ["a", "b"] } } }

def entryWithGit : SkillEntry :=
  { skill := sampleSkill,
    metadata := some { requires := some { bins := some ["git"] } } }

def extractTrueSpec : SkillInstallSpec :=
  { kind := "download", url := some "https://example.com/tool.bin",
    extract := some true }

def dlSpec : SkillInstallSpec :=
  { kind := "download", url := some "https://example.com/tool.bin",
    extract := some false }

def dlEntry : SkillEntry :=
  { skill := sampleSkill, metadata := some { install := some [dlSpec] } }

/-- A host on which every subprocess fails with exit 1, no binary is ever
discoverable, the scanner is clean, and downloads fail. -/
def baseHost : Host :=
  { run := fun _ _ _ _ => { stdout := "", stderr := "", code := some 1 },
    hasBinary := fun _ _ => false,
    platform := "darwin", arch := "x64", isRoot := false,
    homebrewPrefixEnv := none, brewFallbackExe := none,
    fileExists := fun _ => false,
    loadEntries := fun _ => [],
    resolveUserPath := id, resolvePath := id,
    relativePath := fun _ b => b,
    resolveSkillKey := fun _ => "sample",
    configDir := "/cfg",
    scan := fun _ => Except.ok { critical := 0, warn := 0, findings := [] },
    fetchDownload := fun _ _ _ => Except.error "offline",
    parseUrlPath := fun _ => none,
    prefs := { nodeManager := "npm", preferBrew := true },
    renderDebug := fun _ _ _ => "debug" }

/-- A host whose downloads succeed with 42 bytes. -/
def dlHost : Host :=
  { baseHost with
    fetchDownload := fun _ _ _ => Except.ok 42,
    parseUrlPath := fun _ => some "/tool.bin" }

/-- A host on which every subprocess reports success (exit 0) but no binary
ever becomes discoverable. -/
def okRunHost : Host :=
  { baseHost with run := fun _ _ _ _ => { stdout := "", stderr := "", code := some 0 } }

/-- A host carrying `dlEntry`, whose scanner throws and whose downloads
succeed with 7 bytes. -/
def scanFailHost : Host :=
  { baseHost with
    loadEntries := fun _ => [dlEntry],
    scan := fun _ => Except.error "boom",
    fetchDownload := fun _ _ _ => Except.ok 7,
    parseUrlPath := fun _ => some "/tool.bin" }

def sampleRequest : SkillInstallRequest :=
  { workspaceDir := "/ws", skillName := "sample", installId := "download-0" }

/-- The argv vectors of the candidate chain that `tryInstallPrereqBin`
builds for a binary (empty when the binary is not allow-listed). -/
def allowArgvs (h : Host) (tr : Trace) (prefs : SkillsInstallPreferences)
    (brewExe : Option String) (bin : String) : List (List String) :=
  match BIN_INSTALL_ALLOWLIST bin with
  | none => []
  | some allow => (prereqAttempts h tr prefs brewExe allow).map (·.2)

/-! ## Helper lemmas -/

theorem withWarnings_ok (r : SkillInstallResult) (ws : List String) :
    (withWarnings r ws).ok = r.ok := by
  unfold withWarnings; split <;> rfl

theorem withWarnings_code (r : SkillInstallResult) (ws : List String) :
    (withWarnings r ws).code = r.code := by
  unfold withWarnings; split <;> rfl

theorem stripWarnings_withWarnings (r : SkillInstallResult) (ws : List String) :
    stripWarnings (withWarnings r ws) = stripWarnings r := by
  unfold withWarnings stripWarnings; split <;> rfl

theorem withWarnings_warnings_of_ne (r : SkillInstallResult) (ws : List String)
    (hws : ws ≠ []) : (withWarnings r ws).warnings = some ws := by
  unfold withWarnings
  split
  · exact absurd (by assumption) hws
  · rfl

/-! ## Claim C3 -/

/-- Claim C3: a binary name that is not a key of the static allow-list makes
`tryInstallPrereqBin` fail immediately with the
"No auto-installer allowlisted" message, and the execution trace is
unchanged, i.e. no subprocess is invoked for that binary. -/
theorem c3_unlisted_bin_fails_without_subprocess (h : Host)
    (prefs : SkillsInstallPreferences) (brewExe : Option String)
    (timeoutMs : Int) (bin : String) (tr : Trace)
    (hbin : BIN_INSTALL_ALLOWLIST bin = none) :
    tryInstallPrereqBin h prefs brewExe timeoutMs bin tr =
      ({ bin := bin, ok := false,
         message := "No auto-installer allowlisted for missing binary: " ++ bin,
         stdout := "", stderr := "", code := none }, tr) := by
  unfold tryInstallPrereqBin
  rw [hbin]

/-- Witness for C3 at the concrete unlisted binary `frob`. -/
theorem c3_witness :
    BIN_INSTALL_ALLOWLIST "frob" = none ∧
    tryInstallPrereqBin baseHost baseHost.prefs none 1000 "frob" [] =
      ({ bin := "frob", ok := false,
         message := "No auto-installer allowlisted for missing binary: frob",
         stdout := "", stderr := "", code := none }, []) :=
  ⟨rfl,
   c3_unlisted_bin_fails_without_subprocess baseHost baseHost.prefs none 1000
     "frob" [] rfl⟩

/-! ## Claim C4 -/

/-- Claim C4: the effective timeout of `installSkill` is the requested value
clamped into `[1000, 900000]` ms, defaulting to `300000` when absent; in
particular `0` clamps to `1000` and `10000000` clamps to `900000`. -/
theorem c4_timeout_clamp (t : Option Int) :
    1000 ≤ effectiveTimeoutMs t ∧ effectiveTimeoutMs t ≤ 900000 ∧
    effectiveTimeoutMs none = 300000 ∧
    effectiveTimeoutMs (some 0) = 1000 ∧
    effectiveTimeoutMs (some 10000000) = 900000 := by
  unfold effectiveTimeoutMs
  refine ⟨?_, ?_, by norm_num, by norm_num, by norm_num⟩ <;>
    rcases t with _ | x <;>
      simp only [Option.getD, min_def, max_def] <;> split_ifs <;> omega

/-! ## Claim C5 -/

/-- Claim C5: for a spec missing its kind-specific mandatory field (brew
without formula, node or uv without package, go without module — a missing
field in JavaScript is `undefined` or the falsy `""`), and for every
download-kind spec, `buildInstallCommand` returns the descriptive error for
that kind with a null command vector; being a pure function it executes
nothing. -/
theorem c5_missing_field_never_runnable (spec : SkillInstallSpec)
    (prefs : SkillsInstallPreferences)
    (hmiss : (spec.kind = "brew" ∧ spec.formula.getD "" = "") ∨
             (spec.kind = "node" ∧ spec.package.getD "" = "") ∨
             (spec.kind = "uv" ∧ spec.package.getD "" = "") ∨
             (spec.kind = "go" ∧ spec.module.getD "" = "") ∨
             spec.kind = "download") :
    buildInstallCommand spec prefs =
      { argv := none, error := some (missingFieldError spec.kind) } := by
  unfold buildInstallCommand missingFieldError
  rcases hmiss with ⟨hk, hf⟩ | ⟨hk, hf⟩ | ⟨hk, hf⟩ | ⟨hk, hf⟩ | hk
  all_goals simp_all

/-- Witness for C5: a brew spec with no formula. -/
theorem c5_witness :
    buildInstallCommand { kind := "brew" } baseHost.prefs =
      { argv := none, error := some (missingFieldError "brew") } :=
  c5_missing_field_never_runnable { kind := "brew" } baseHost.prefs
    (Or.inl ⟨rfl, rfl⟩)

/-! ## Claim C6 -/

/-- Claim C6: when the deduplicated `anyBins` set is non-empty and none of
its members is discoverable, `ensurePrerequisiteBins` fails immediately with
the "need one of [...]" message and an unchanged trace (no install attempt),
regardless of which required binaries are missing. -/
theorem c6_anybins_all_missing_fails_before_installs (h : Host)
    (entry : SkillEntry) (spec : SkillInstallSpec)
    (prefs : SkillsInstallPreferences) (brewExe : Option String)
    (timeoutMs : Int) (tr : Trace)
    (hne : anyBinsOf entry ≠ [])
    (hnone : ∀ b ∈ anyBinsOf entry, h.hasBinary tr b = false) :
    ensurePrerequisiteBins h entry spec prefs brewExe timeoutMs tr =
      ({ ok := false,
         message := some ("Missing prerequisite: need one of [" ++
           String.intercalate ", " (anyBinsOf entry) ++ "]"),
         stdout := "", stderr := "", warnings := [] }, tr) := by
  unfold ensurePrerequisiteBins
  have hlen : (anyBinsOf entry).length ≠ 0 := by
    simpa [List.length_eq_zero] using hne
  have hany : (anyBinsOf entry).any (fun bin => h.hasBinary tr bin) = false := by
    simp only [List.any_eq_false]
    intro b hb
    simp [hnone b hb]
  simp [hlen, hany, Nat.pos_of_ne_zero hlen]

/-- Witness for C6: `anyBins = ["a", "b"]` with neither discoverable. -/
theorem c6_witness :
    anyBinsOf entryWithAny = ["a", "b"] ∧
    ensurePrerequisiteBins baseHost entryWithAny dlSpec baseHost.prefs none
        1000 [] =
      ({ ok := false,
         message := some ("Missing prerequisite: need one of [" ++
           String.intercalate ", " (anyBinsOf entryWithAny) ++ "]"),
         stdout := "", stderr := "", warnings := [] }, []) :=
  ⟨by decide,
   c6_anybins_all_missing_fails_before_installs baseHost entryWithAny dlSpec
     baseHost.prefs none 1000 [] (by decide) (fun _ _ => rfl)⟩

/-! ## Claim C1 -/

/-- Counterexample to claim C1 as stated: on a host whose download succeeds
(42 bytes), a download spec with `extract := true` and an undetectable
archive type makes `installDownloadSpec` fail with the
"extract requested but archive type could not be detected" message instead
of reporting a plain download success. -/
theorem c1_counterexample :
    downloadFile dlHost "https://example.com/tool.bin"
        "/cfg/tools/sample/tool.bin" 1000 = Except.ok 42 ∧
    extractTrueSpec.extract = some true ∧
    resolveArchiveType extractTrueSpec "tool.bin" = none ∧
    (installDownloadSpec dlHost sampleEntry extractTrueSpec 1000 []).1 =
      { ok := false,
        message := "extract requested but archive type could not be detected",
        stdout := "", stderr := "", code := none } := by
  refine ⟨rfl, rfl, by decide, by decide⟩

/-- Claim C1 as amended: for a download spec whose download succeeds,
`installDownloadSpec` reports a plain download success with the byte count
when `extract` is `false`, or when `extract` is unset and the archive type
cannot be detected; but when `extract` is explicitly `true` and the archive
type cannot be detected, it fails with a distinct message.  In both cases no
subprocess runs (the trace is unchanged). -/
theorem c1_amended_extract_opt_in (h : Host) (entry : SkillEntry)
    (spec : SkillInstallSpec) (timeoutMs : Int) (tr : Trace) (n : Nat)
    (hurl : jsTrim (spec.url.getD "") ≠ "")
    (hdl : downloadFile h (jsTrim (spec.url.getD ""))
        (pathJoin (resolveDownloadTargetDir h entry spec)
          (downloadFilename h.parseUrlPath (jsTrim (spec.url.getD ""))))
        timeoutMs = Except.ok n) :
    ((spec.extract = some false ∨
      (spec.extract = none ∧
        resolveArchiveType spec
          (downloadFilename h.parseUrlPath (jsTrim (spec.url.getD ""))) = none)) →
      installDownloadSpec h entry spec timeoutMs tr =
        ({ ok := true,
           message := "Downloaded to " ++
             pathJoin (resolveDownloadTargetDir h entry spec)
               (downloadFilename h.parseUrlPath (jsTrim (spec.url.getD ""))),
           stdout := "downloaded=" ++ toString n, stderr := "",
           code := some 0 }, tr)) ∧
    ((spec.extract = some true ∧
      resolveArchiveType spec
        (downloadFilename h.parseUrlPath (jsTrim (spec.url.getD ""))) = none) →
      installDownloadSpec h entry spec timeoutMs tr =
        ({ ok := false,
           message := "extract requested but archive type could not be detected",
           stdout := "", stderr := "", code := none }, tr)) := by
  constructor
  · intro hcase
    unfold installDownloadSpec
    rcases hcase with hext | ⟨hext, htype⟩
    · simp [hurl, hdl, hext]
    · simp [hurl, hdl, hext, htype]
  · intro ⟨hext, htype⟩
    unfold installDownloadSpec
    simp [hurl, hdl, hext, htype]

/-- Witness for the amended C1: concrete successful download with
`extract := false`. -/
theorem c1_witness :
    jsTrim (dlSpec.url.getD "") ≠ "" ∧
    installDownloadSpec dlHost sampleEntry dlSpec 1000 [] =
      ({ ok := true, message := "Downloaded to /cfg/tools/sample/tool.bin",
         stdout := "downloaded=42", stderr := "", code := some 0 }, []) :=
  ⟨by decide,
   ((c1_amended_extract_opt_in dlHost sampleEntry dlSpec 1000 [] 42
       (by decide) rfl).1 (Or.inl rfl))⟩


/-! ## Claim C2 -/

theorem snd_getD_map (o : Option (String × List String)) :
    (o.map (·.2)).getD [] = (o.getD ("", [])).2 := by
  cases o <;> rfl

theorem runAttemptsLoop_trace_take (h : Host) (timeoutMs : Int) :
    ∀ (atts : List (String × List String)) (tr : Trace),
      ∃ k, (runAttemptsLoop h timeoutMs atts tr).2 =
        tr ++ (atts.map (·.2)).take k := by
  intro atts
  induction atts with
  | nil => intro tr; exact ⟨0, by simp [runAttemptsLoop]⟩
  | cons a rest ih =>
    intro tr
    simp only [runAttemptsLoop, runCommandWithTimeout]
    split
    · exact ⟨1, by simp⟩
    · obtain ⟨k, hk⟩ := ih (tr ++ [a.2])
      exact ⟨k + 1, by rw [hk]; simp⟩

theorem runAttemptsLoop_none_trace (h : Host) (timeoutMs : Int) :
    ∀ (atts : List (String × List String)) (tr : Trace),
      (runAttemptsLoop h timeoutMs atts tr).1 = none →
      (runAttemptsLoop h timeoutMs atts tr).2 = tr ++ atts.map (·.2) := by
  intro atts
  induction atts with
  | nil => intro tr _; simp [runAttemptsLoop]
  | cons a rest ih =>
    intro tr hnone
    simp only [runAttemptsLoop, runCommandWithTimeout] at hnone ⊢
    split at hnone
    · simp at hnone
    · rename_i hcond
      rw [if_neg hcond, ih (tr ++ [a.2]) hnone]
      simp

theorem brew_apt_argv_ne (x f : String) (apt : List String)
    (hapt : 0 < apt.length) :
    [x, "install", f] ≠ "apt-get" :: "install" :: "-y" :: apt := by
  intro heq
  have hlen := congrArg List.length heq
  simp only [List.length_cons, List.length_nil] at hlen
  omega

theorem prereqAttempts_argvs_nodup (h : Host) (tr : Trace)
    (prefs : SkillsInstallPreferences) (brewExe : Option String)
    (allow : AllowEntry) (hbrew : allow.brew.length ≤ 1)
    (hnode : allow.node = []) (hgo : allow.go = []) :
    ((prereqAttempts h tr prefs brewExe allow).map (·.2)).Nodup := by
  unfold prereqAttempts
  rw [hnode, hgo]
  rcases hb : allow.brew with _ | ⟨f, rest⟩
  · split_ifs <;> simp
  · have hrest : rest = [] := by
      rw [hb] at hbrew
      simp only [List.length_cons] at hbrew
      exact List.length_eq_zero.mp (Nat.le_zero.mp (Nat.le_of_succ_le_succ hbrew))
    subst hrest
    split_ifs with hbw hapt hapt2
    · simp only [Bool.and_eq_true, decide_eq_true_eq] at hapt
      simp [List.nodup_cons, brew_apt_argv_ne _ _ _ hapt.2]
    · simp
    · simp
    · simp

set_option maxHeartbeats 1000000 in
theorem allowArgvs_nodup (h : Host) (tr : Trace)
    (prefs : SkillsInstallPreferences) (brewExe : Option String)
    (bin : String) : (allowArgvs h tr prefs brewExe bin).Nodup := by
  unfold allowArgvs BIN_INSTALL_ALLOWLIST
  split_ifs <;>
    first
    | exact List.nodup_nil
    | exact prereqAttempts_argvs_nodup h tr prefs brewExe _ (by decide) rfl rfl

theorem runPrereqAttempts_trace (h : Host) (timeoutMs : Int)
    (bin aptNote : String) (atts : List (String × List String)) (tr : Trace) :
    (∃ k, (runPrereqAttempts h timeoutMs bin aptNote atts tr).2 =
        tr ++ (atts.map (·.2)).take k) ∨
    ((runPrereqAttempts h timeoutMs bin aptNote atts tr).1.ok = false ∧
     atts.map (·.2) ≠ [] ∧
     (runPrereqAttempts h timeoutMs bin aptNote atts tr).2 =
       tr ++ atts.map (·.2) ++ [((atts.map (·.2)).getLast?).getD []] ∧
     (runPrereqAttempts h timeoutMs bin aptNote atts tr).1.stdout =
       jsTrim (h.run (tr ++ atts.map (·.2))
         (((atts.map (·.2)).getLast?).getD []) timeoutMs none).stdout ∧
     (runPrereqAttempts h timeoutMs bin aptNote atts tr).1.stderr =
       jsTrim (h.run (tr ++ atts.map (·.2))
         (((atts.map (·.2)).getLast?).getD []) timeoutMs none).stderr) := by
  unfold runPrereqAttempts
  split_ifs with hlen
  · exact Or.inl ⟨0, by simp⟩
  · rcases hloop : runAttemptsLoop h timeoutMs atts tr with ⟨res, tr2⟩
    cases res with
    | some success =>
      obtain ⟨k, hk⟩ := runAttemptsLoop_trace_take h timeoutMs atts tr
      rw [hloop] at hk
      rcases success with ⟨attempt, rres⟩
      exact Or.inl ⟨k, hk⟩
    | none =>
      have htr2 : tr2 = tr ++ atts.map (·.2) := by
        have hz := runAttemptsLoop_none_trace h timeoutMs atts tr
          (by rw [hloop])
        rw [hloop] at hz
        exact hz
      dsimp only
      refine Or.inr ⟨rfl, ?_, ?_, ?_, ?_⟩
      · intro hmap
        exact hlen (by simpa using congrArg List.length hmap)
      · simp only [runCommandWithTimeout, htr2, List.getLast?_map,
          snd_getD_map]
      · simp only [runCommandWithTimeout, htr2, List.getLast?_map,
          snd_getD_map]
      · simp only [runCommandWithTimeout, htr2, List.getLast?_map,
          snd_getD_map]

/-- Counterexample to claim C2 as stated: with brew preferred and available
and every run failing, resolving the missing binary `git` executes the very
same command vector `brew install git` twice — once in the fallback loop
and once more to capture output for the failure report. -/
theorem c2_counterexample :
    (tryInstallPrereqBin baseHost baseHost.prefs (some "brew") 1000 "git" []).2 =
      [["brew", "install", "git"], ["brew", "install", "git"]] ∧
    (((tryInstallPrereqBin baseHost baseHost.prefs (some "brew") 1000 "git"
      []).2).count ["brew", "install", "git"]) = 2 := by
  constructor <;> rfl

/-- Claim C2 as amended: the candidate chain built for one binary is
duplicate-free and, while searching for a success, is executed as a prefix
of the chain (each candidate at most once, stopping at the first success);
but when every candidate fails, the last candidate is executed one
additional time, verbatim, and the failure attempt surfaces that rerun's
trimmed stdout/stderr. -/
theorem c2_amended_fallback_chain (h : Host)
    (prefs : SkillsInstallPreferences) (brewExe : Option String)
    (timeoutMs : Int) (bin : String) (tr : Trace) :
    (allowArgvs h tr prefs brewExe bin).Nodup ∧
    ((∃ k, (tryInstallPrereqBin h prefs brewExe timeoutMs bin tr).2 =
        tr ++ (allowArgvs h tr prefs brewExe bin).take k) ∨
     ((tryInstallPrereqBin h prefs brewExe timeoutMs bin tr).1.ok = false ∧
      allowArgvs h tr prefs brewExe bin ≠ [] ∧
      (tryInstallPrereqBin h prefs brewExe timeoutMs bin tr).2 =
        tr ++ allowArgvs h tr prefs brewExe bin ++
          [((allowArgvs h tr prefs brewExe bin).getLast?).getD []] ∧
      (tryInstallPrereqBin h prefs brewExe timeoutMs bin tr).1.stdout =
        jsTrim (h.run (tr ++ allowArgvs h tr prefs brewExe bin)
          (((allowArgvs h tr prefs brewExe bin).getLast?).getD [])
          timeoutMs none).stdout ∧
      (tryInstallPrereqBin h prefs brewExe timeoutMs bin tr).1.stderr =
        jsTrim (h.run (tr ++ allowArgvs h tr prefs brewExe bin)
          (((allowArgvs h tr prefs brewExe bin).getLast?).getD [])
          timeoutMs none).stderr)) := by
  refine ⟨allowArgvs_nodup h tr prefs brewExe bin, ?_⟩
  cases hall : BIN_INSTALL_ALLOWLIST bin with
  | none =>
    refine Or.inl ⟨0, ?_⟩
    simp [tryInstallPrereqBin, allowArgvs, hall]
  | some allow =>
    have hargvs : allowArgvs h tr prefs brewExe bin =
        (prereqAttempts h tr prefs brewExe allow).map (·.2) := by
      simp [allowArgvs, hall]
    have heq : tryInstallPrereqBin h prefs brewExe timeoutMs bin tr =
        runPrereqAttempts h timeoutMs bin
          (if h.hasBinary tr "apt-get" && h.platform = "linux" then
            " (apt-get present but needs root)"
          else "")
          (prereqAttempts h tr prefs brewExe allow) tr := by
      simp [tryInstallPrereqBin, hall]
    rw [hargvs, heq]
    exact runPrereqAttempts_trace h timeoutMs bin _ _ tr

/-! ## Claim C7 -/

/-- Claim C7: when the per-binary install loop reports success for every
originally missing required binary, `ensurePrerequisiteBins` re-checks
discoverability against the post-install history: it succeeds exactly when
no originally missing binary is still missing, and otherwise fails with the
distinct "still missing after auto-install" error naming those binaries —
so a claimed-successful installer run that did not place the binary is
never treated as success. -/
theorem c7_recheck_after_install (h : Host) (entry : SkillEntry)
    (spec : SkillInstallSpec) (prefs : SkillsInstallPreferences)
    (brewExe : Option String) (timeoutMs : Int) (tr : Trace)
    (so se : List String) (tr2 : Trace)
    (hany : anyBinsOf entry = [] ∨
      ∃ b ∈ anyBinsOf entry, h.hasBinary tr b = true)
    (hmiss : missingRequiredOf h entry spec tr ≠ [])
    (hloop : prereqLoop h prefs brewExe timeoutMs
        (missingRequiredOf h entry spec tr) [] [] tr =
      (Except.ok (so, se), tr2)) :
    ((ensurePrerequisiteBins h entry spec prefs brewExe timeoutMs tr).1.ok =
        true ↔
      (missingRequiredOf h entry spec tr).filter
        (fun bin => !h.hasBinary tr2 bin) = []) ∧
    ((missingRequiredOf h entry spec tr).filter
        (fun bin => !h.hasBinary tr2 bin) ≠ [] →
      (ensurePrerequisiteBins h entry spec prefs brewExe timeoutMs tr).1 =
        { ok := false,
          message := some ("Prerequisites still missing after auto-install: " ++
            String.intercalate ", " ((missingRequiredOf h entry spec tr).filter
              (fun bin => !h.hasBinary tr2 bin))),
          stdout := joinNonEmptyLines so,
          stderr := joinNonEmptyLines se, warnings := [] }) := by
  have hhasAny : (if (anyBinsOf entry).length = 0 then true
      else (anyBinsOf entry).any (fun bin => h.hasBinary tr bin)) = true := by
    rcases hany with hnil | ⟨b, hb, hhb⟩
    · simp [hnil]
    · split
      · rfl
      · exact List.any_eq_true.mpr ⟨b, hb, by simp [hhb]⟩
  have hlen : ¬ (missingRequiredOf h entry spec tr).length = 0 := by
    simpa [List.length_eq_zero] using hmiss
  simp only [ensurePrerequisiteBins, hhasAny, Bool.not_true, Bool.false_and,
    Bool.false_eq_true, if_false, hlen, if_neg hlen]
  rw [hloop]
  dsimp only
  by_cases hsm : (missingRequiredOf h entry spec tr).filter
      (fun bin => !h.hasBinary tr2 bin) = []
  · have hsl : ¬ (((missingRequiredOf h entry spec tr).filter
        (fun bin => !h.hasBinary tr2 bin)).length > 0) := by
      simp [hsm]
    rw [if_neg hsl]
    exact ⟨by simp [hsm], fun hne => absurd hsm hne⟩
  · have hsl : ((missingRequiredOf h entry spec tr).filter
        (fun bin => !h.hasBinary tr2 bin)).length > 0 := by
      have := hsm
      rcases hfe : (missingRequiredOf h entry spec tr).filter
          (fun bin => !h.hasBinary tr2 bin) with _ | ⟨x, xs⟩
      · exact absurd hfe hsm
      · simp
    rw [if_pos hsl]
    exact ⟨by simp [hsm], fun _ => rfl⟩

/-- Witness for C7: on a host where `brew install git` claims success but
`git` never becomes discoverable, prerequisite resolution fails with the
"still missing after auto-install" error. -/
theorem c7_witness :
    prereqLoop okRunHost baseHost.prefs (some "brew") 1000 ["git"] [] [] [] =
      (Except.ok (["==> prereq git: Installed prerequisite (brew): git", ""],
        []), [["brew", "install", "git"]]) ∧
    (ensurePrerequisiteBins okRunHost entryWithGit dlSpec baseHost.prefs
        (some "brew") 1000 []).1 =
      { ok := false,
        message := some "Prerequisites still missing after auto-install: git",
        stdout := "==> prereq git: Installed prerequisite (brew): git",
        stderr := "", warnings := [] } :=
  ⟨rfl,
   (c7_recheck_after_install okRunHost entryWithGit dlSpec baseHost.prefs
      (some "brew") 1000 [] ["==> prereq git: Installed prerequisite (brew): git", ""]
      [] [["brew", "install", "git"]] (Or.inl rfl) (by decide) rfl).2
     (by decide)⟩

/-! ## Claim C9 -/

/-- Counterexample to claim C9 as stated: the first line of
`"errorbound xyz\nsecond line"` starts with the five characters `error`,
yet the summary chosen is the last non-empty line, because the code's
pattern `^error\b` additionally requires a word boundary after `error`. -/
theorem c9_counterexample :
    startsWithChars "error".data "errorbound xyz".data = true ∧
    isErrorLeading "errorbound xyz" = false ∧
    summarizeInstallOutput "errorbound xyz\nsecond line" =
      some "second line" ∧
    formatInstallFailureMessage "x64" "linux"
      { stdout := "", stderr := "errorbound xyz\nsecond line",
        code := some 1 } = "Install failed (exit 1): second line" := by
  refine ⟨by decide, by decide, by decide, by decide⟩

/-- Claim C9 as amended: when no platform-incompatibility hint fires, the
failure formatter emits the exit-code label (`exit N` / `unknown exit`)
followed by the summary taken from stderr if it yields one, else stdout;
and the summary of a text is the first trimmed non-empty line matching the
word-anchored `error`-leading pattern, else the first line matching the
word-anchored `err!`/`error:`/`failed` keyword pattern, else the last
non-empty line — whitespace-normalized and truncated to 200 characters with
a trailing ellipsis when longer. -/
theorem c9_amended_formatter (r : RunResult) (arch platform text : String)
    (hhint : detectPlatformIncompatibilityHint arch platform
      (r.stderr ++ "\n" ++ r.stdout) = none) :
    (formatInstallFailureMessage arch platform r =
      match (summarizeInstallOutput r.stderr).orElse
          (fun _ => summarizeInstallOutput r.stdout) with
      | none => "Install failed (" ++ exitLabel r.code ++ ")"
      | some s => "Install failed (" ++ exitLabel r.code ++ "): " ++ s) ∧
    summarizeInstallOutput text =
      ((((summaryLines (jsTrim text)).find? isErrorLeading).orElse
        (fun _ => (summaryLines (jsTrim text)).find? hasFailureKeyword)).orElse
        (fun _ => (summaryLines (jsTrim text)).getLast?)).map
        (fun p => truncate200 (normalizeWs p)) := by
  constructor
  · simp only [formatInstallFailureMessage]
    rw [hhint]
  · simp only [summarizeInstallOutput]
    by_cases hraw : jsTrim text = ""
    · rw [if_pos hraw, hraw]
      rfl
    · rw [if_neg hraw]
      by_cases hlines : summaryLines (jsTrim text) = []
      · rw [if_pos hlines, hlines]
        rfl
      · rw [if_neg hlines]
        cases hpref : (((summaryLines (jsTrim text)).find? isErrorLeading).orElse
            (fun _ => (summaryLines (jsTrim text)).find? hasFailureKeyword)).orElse
            (fun _ => (summaryLines (jsTrim text)).getLast?) with
        | none => rfl
        | some p =>
          have hmem : p ∈ summaryLines (jsTrim text) := by
            rcases h1 : (summaryLines (jsTrim text)).find? isErrorLeading
              with _ | q
            · rcases h2 : (summaryLines (jsTrim text)).find? hasFailureKeyword
                with _ | q2
              · have hlast : (summaryLines (jsTrim text)).getLast? = some p := by
                  simpa [Option.orElse, h1, h2] using hpref
                exact List.mem_of_getLast?_eq_some hlast
              · have hq : q2 = p := by
                  simpa [Option.orElse, h1, h2] using hpref
                exact hq ▸ List.mem_of_find?_eq_some h2
            · have hq : q = p := by
                simpa [Option.orElse, h1] using hpref
              exact hq ▸ List.mem_of_find?_eq_some h1
          have hp : p ≠ "" := by
            unfold summaryLines at hmem
            have := (List.mem_filter.mp hmem).2
            exact of_decide_eq_true this
          dsimp only
          rw [if_neg hp]
          rfl

/-- Witness for the amended C9 at a concrete failure record. -/
theorem c9_witness :
    detectPlatformIncompatibilityHint "x64" "linux"
      ("Error: nope" ++ "\n" ++ "") = none ∧
    ((formatInstallFailureMessage "x64" "linux"
        { stdout := "", stderr := "Error: nope", code := some 2 } =
      match (summarizeInstallOutput
          (RunResult.mk "" "Error: nope" (some 2)).stderr).orElse
          (fun _ => summarizeInstallOutput
            (RunResult.mk "" "Error: nope" (some 2)).stdout) with
      | none => "Install failed (" ++
          exitLabel (RunResult.mk "" "Error: nope" (some 2)).code ++ ")"
      | some s => "Install failed (" ++
          exitLabel (RunResult.mk "" "Error: nope" (some 2)).code ++ "): " ++ s) ∧
     summarizeInstallOutput "boom failed\nlast" =
      ((((summaryLines (jsTrim "boom failed\nlast")).find? isErrorLeading).orElse
        (fun _ => (summaryLines (jsTrim "boom failed\nlast")).find?
          hasFailureKeyword)).orElse
        (fun _ => (summaryLines (jsTrim "boom failed\nlast")).getLast?)).map
        (fun p => truncate200 (normalizeWs p))) :=
  ⟨by decide,
   c9_amended_formatter { stdout := "", stderr := "Error: nope", code := some 2 }
     "x64" "linux" "boom failed\nlast" (by decide)⟩

/-! ## Lemmas for C8 and C10 -/

theorem prereqLoop_error_warnings (h : Host) (prefs : SkillsInstallPreferences)
    (brewExe : Option String) (timeoutMs : Int) :
    ∀ (bins so se : List String) (tr : Trace) (pr : PrereqResult),
      (prereqLoop h prefs brewExe timeoutMs bins so se tr).1 =
        Except.error pr → pr.warnings = [] := by
  intro bins
  induction bins with
  | nil =>
    intro so se tr pr hpr
    simp [prereqLoop] at hpr
  | cons bin rest ih =>
    intro so se tr pr hpr
    simp only [prereqLoop] at hpr
    split at hpr
    · rw [Prod.fst] at hpr
      injection hpr with hpr
      rw [← hpr]
    · exact ih _ _ _ pr hpr

theorem ensurePrerequisiteBins_warnings (h : Host) (entry : SkillEntry)
    (spec : SkillInstallSpec) (prefs : SkillsInstallPreferences)
    (brewExe : Option String) (timeoutMs : Int) (tr : Trace) :
    ((ensurePrerequisiteBins h entry spec prefs brewExe timeoutMs tr).1).warnings
      = [] := by
  simp only [ensurePrerequisiteBins]
  repeat' split
  all_goals try rfl
  all_goals
    rename_i failure tr2 heq
    exact prereqLoop_error_warnings h prefs brewExe timeoutMs _ _ _ _
      failure (by rw [heq])

theorem installToolBootstrap_error_ok (h : Host) (tr : Trace)
    (timeoutMs : Int) (brewExe : Option String) (tool : String)
    (out : SkillInstallResult × Trace)
    (hb : installToolBootstrap h tr timeoutMs brewExe tool =
      Except.error out) : out.1.ok = false := by
  simp only [installToolBootstrap] at hb
  split at hb
  · split at hb
    · injection hb with hb
      rw [← hb]
    · exact absurd hb (by simp)
  · injection hb with hb
    rw [← hb]

theorem installDownloadSpec_ok_code (h : Host) (entry : SkillEntry)
    (spec : SkillInstallSpec) (timeoutMs : Int) (tr : Trace)
    (hok : (installDownloadSpec h entry spec timeoutMs tr).1.ok = true) :
    (installDownloadSpec h entry spec timeoutMs tr).1.code = some 0 := by
  revert hok
  simp only [installDownloadSpec]
  repeat' split
  all_goals simp [beq_iff_eq]

theorem bootstrapIf_error_ok (h : Host) (tr : Trace) (timeoutMs : Int)
    (brewExe : Option String) (tool : String) (cond : Bool)
    (out : SkillInstallResult × Trace)
    (heq : (if cond = true then installToolBootstrap h tr timeoutMs brewExe tool
      else Except.ok tr) = Except.error out) : out.1.ok = false := by
  split at heq
  · exact installToolBootstrap_error_ok _ _ _ _ _ _ heq
  · exact absurd heq (by simp)

set_option maxHeartbeats 2000000 in
theorem installSkillRunStrategy_ok_code (h : Host) (req : SkillInstallRequest)
    (entry : SkillEntry) (spec : SkillInstallSpec) (ws : List String)
    (timeoutMs : Int) (tr : Trace)
    (hok : (installSkillRunStrategy h req entry spec ws timeoutMs tr).1.ok =
      true) :
    (installSkillRunStrategy h req entry spec ws timeoutMs tr).1.code =
      some 0 := by
  revert hok
  simp only [installSkillRunStrategy]
  repeat' split
  all_goals simp only [withWarnings_ok, withWarnings_code]
  all_goals try simp [beq_iff_eq]
  all_goals
    intro hoko
    rename_i heq
    rw [bootstrapIf_error_ok _ _ _ _ _ _ _ heq] at hoko
    exact absurd hoko (by simp)

theorem installSkillWithEntry_ok_code (h : Host) (req : SkillInstallRequest)
    (entry : SkillEntry) (ws : List String) (timeoutMs : Int) (tr : Trace)
    (hok : (installSkillWithEntry h req entry ws timeoutMs tr).1.ok = true) :
    (installSkillWithEntry h req entry ws timeoutMs tr).1.code = some 0 := by
  revert hok
  simp only [installSkillWithEntry]
  split
  · simp [withWarnings_ok, withWarnings_code]
  · split
    · simp only [withWarnings_ok, withWarnings_code]
      intro hoko
      exact installDownloadSpec_ok_code _ _ _ _ _ hoko
    · intro hoko
      exact installSkillRunStrategy_ok_code _ _ _ _ _ _ _ hoko

/-! ## Claim C10 -/

/-- Claim C10: every `installSkill` result with `ok = true` carries
`code = some 0` — each success path sets the code to zero exactly when it
reports success, and every failure path reports `ok = false`. -/
theorem c10_ok_implies_code_zero (h : Host) (req : SkillInstallRequest)
    (tr : Trace) (hok : (installSkill h req tr).1.ok = true) :
    (installSkill h req tr).1.code = some 0 := by
  revert hok
  simp only [installSkill]
  split
  · simp
  · intro hok
    exact installSkillWithEntry_ok_code _ _ _ _ _ _ hok

/-- Witness for C10: a concrete end-to-end successful download install. -/
theorem c10_witness :
    (installSkill scanFailHost sampleRequest []).1.code = some 0 :=
  c10_ok_implies_code_zero scanFailHost sampleRequest [] (by decide)

set_option maxHeartbeats 2000000 in
theorem installSkillRunStrategy_strip (h : Host) (req : SkillInstallRequest)
    (entry : SkillEntry) (spec : SkillInstallSpec) (ws ws' : List String)
    (timeoutMs : Int) (tr : Trace) :
    stripWarnings (installSkillRunStrategy h req entry spec ws timeoutMs tr).1 =
      stripWarnings (installSkillRunStrategy h req entry spec ws' timeoutMs tr).1 ∧
    (installSkillRunStrategy h req entry spec ws timeoutMs tr).2 =
      (installSkillRunStrategy h req entry spec ws' timeoutMs tr).2 := by
  simp only [installSkillRunStrategy]
  repeat' split
  all_goals simp [stripWarnings_withWarnings]

set_option maxHeartbeats 2000000 in
theorem installSkillRunStrategy_warnings (h : Host)
    (req : SkillInstallRequest) (entry : SkillEntry)
    (spec : SkillInstallSpec) (ws : List String) (timeoutMs : Int)
    (tr : Trace) (hws : ws ≠ []) :
    ((installSkillRunStrategy h req entry spec ws timeoutMs tr).1).warnings =
      some ws := by
  simp only [installSkillRunStrategy]
  repeat' split
  all_goals
    simp [ensurePrerequisiteBins_warnings, withWarnings_warnings_of_ne _ _ hws]

theorem installSkillWithEntry_strip (h : Host) (req : SkillInstallRequest)
    (entry : SkillEntry) (ws ws' : List String) (timeoutMs : Int)
    (tr : Trace) :
    stripWarnings (installSkillWithEntry h req entry ws timeoutMs tr).1 =
      stripWarnings (installSkillWithEntry h req entry ws' timeoutMs tr).1 ∧
    (installSkillWithEntry h req entry ws timeoutMs tr).2 =
      (installSkillWithEntry h req entry ws' timeoutMs tr).2 := by
  simp only [installSkillWithEntry]
  split
  · simp [stripWarnings_withWarnings]
  · split
    · simp [stripWarnings_withWarnings]
    · exact installSkillRunStrategy_strip h req entry _ ws ws' timeoutMs tr

theorem installSkillWithEntry_warnings (h : Host) (req : SkillInstallRequest)
    (entry : SkillEntry) (ws : List String) (timeoutMs : Int) (tr : Trace)
    (hws : ws ≠ []) :
    ((installSkillWithEntry h req entry ws timeoutMs tr).1).warnings =
      some ws := by
  simp only [installSkillWithEntry]
  split
  · exact withWarnings_warnings_of_ne _ _ hws
  · split
    · exact withWarnings_warnings_of_ne _ _ hws
    · exact installSkillRunStrategy_warnings h req entry _ ws timeoutMs tr hws

theorem collect_scan_error (h : Host) (entry : SkillEntry) (err : String)
    (hscan : h.scan (h.resolvePath entry.skill.baseDir) = Except.error err) :
    collectSkillInstallScanWarnings h entry =
      [scanFailWarning entry.skill.name err] := by
  simp only [collectSkillInstallScanWarnings]
  rw [hscan]

theorem collect_clean (h : Host) (entry : SkillEntry) :
    collectSkillInstallScanWarnings (cleanScanHost h) entry = [] := rfl

/-! ## Claim C8 -/

/-- Claim C8: when the security scanner throws for the selected skill entry,
the install still proceeds and the result carries exactly one warning, the
scan-failed warning naming the skill.  Concretely: the result, stripped of
its warnings, and the executed subprocess trace are exactly those of the
post-scan pipeline run with an empty warning list — which is what the same
call produces under a scanner returning a clean summary (last conjunct) —
so a scanner exception is downgraded to that single warning and never
causes a terminal failure of its own. -/
theorem c8_scanner_throw_downgraded (h : Host) (req : SkillInstallRequest)
    (entry : SkillEntry) (err : String) (tr : Trace)
    (hfind : (h.loadEntries (h.resolveUserPath req.workspaceDir)).find?
        (fun item => item.skill.name == req.skillName) = some entry)
    (hscan : h.scan (h.resolvePath entry.skill.baseDir) = Except.error err) :
    (installSkill h req tr).1.warnings =
      some [scanFailWarning entry.skill.name err] ∧
    stripWarnings (installSkill h req tr).1 =
      stripWarnings (installSkillWithEntry h req entry []
        (effectiveTimeoutMs req.timeoutMs) tr).1 ∧
    (installSkill h req tr).2 =
      (installSkillWithEntry h req entry []
        (effectiveTimeoutMs req.timeoutMs) tr).2 ∧
    collectSkillInstallScanWarnings (cleanScanHost h) entry = [] := by
  simp only [installSkill]
  rw [hfind]
  dsimp only
  rw [collect_scan_error h entry err hscan]
  refine ⟨installSkillWithEntry_warnings h req entry _ _ tr (by simp),
    (installSkillWithEntry_strip h req entry _ [] _ tr).1,
    (installSkillWithEntry_strip h req entry _ [] _ tr).2,
    collect_clean h entry⟩

/-- Witness for C8: a concrete host whose scanner throws; the install (a
successful download) proceeds and carries exactly the one scan warning. -/
theorem c8_witness :
    (scanFailHost.loadEntries
        (scanFailHost.resolveUserPath sampleRequest.workspaceDir)).find?
      (fun item => item.skill.name == sampleRequest.skillName) = some dlEntry ∧
    scanFailHost.scan (scanFailHost.resolvePath dlEntry.skill.baseDir) =
      Except.error "boom" ∧
    (installSkill scanFailHost sampleRequest []).1.warnings =
      some [scanFailWarning dlEntry.skill.name "boom"] ∧
    (installSkill scanFailHost sampleRequest []).1.ok = true :=
  ⟨rfl, rfl,
   (c8_scanner_throw_downgraded scanFailHost sampleRequest dlEntry "boom" []
     rfl rfl).1,
   by decide⟩
